import Mathlib

set_option maxHeartbeats 1000000
set_option synthInstance.maxHeartbeats 400000

/-!
Verification of the DevTools AI-assistance performance agent.

This development embeds, over character lists, the logic of
`PerformanceAgent` (ai_assistance/agents/PerformanceAgent.ts) and
`AgentFocus` (ai_assistance/performance/AIContext.ts):

* the `AgentFocus` constructors and the at-most-one-of-event/call-tree
  restriction,
* the per-focus function-result cache and the declared function handlers
  (`getEventByKey`, `getMainThreadTrackSummary`, `getNetworkTrackSummary`),
  including the `createBounds` clamping helper and the
  `MAX_FUNCTION_RESULT_BYTE_LENGTH` oversize check,
* the fact store rebuilt by `run`/`#addFacts`,
* `handleContextDetails` and its `#hasShownAnalyzeTraceContext` flag,
* `enhanceQuery` and the `#callTreeContextSet` identity set,
* `parseTextResponse` with the five-backtick fence stripping and the
  `#parseForKnownUrls` URL rewriting pass (the regex
  `(\[(.*?)\]\((.*?)\))|(https?:\/\/[^\s<>()]+)` is embedded as an
  explicit backtracking scanner with JavaScript semantics).

External collaborators that live outside the embedded sources (the trace
formatters, `AICallTree.fromEvent`, the events serializer, `JSON.stringify`)
are taken as parameters of the corresponding definitions, and object
identity (JavaScript `Map`/`WeakSet` keys) is modelled by explicit numeric
ids carried by the model objects.
-/

/-- Strings are modelled as character lists so that the JavaScript string
operations of the source become structural list functions. -/
abbrev Str := List Char

/-- Convert a Lean string literal to the character-list representation. -/
def str (s : String) : Str := s.data

/-- Whitespace test mirroring the JavaScript `\s` class (ASCII part), used by
both `String.prototype.trim` and the URL regex. -/
def isJsSpace (c : Char) : Bool :=
  c == ' ' || c == '\t' || c == '\n' || c == '\r' || c == '\x0b' || c == '\x0c'

/-- JavaScript `String.prototype.trim` on character lists. -/
def jsTrim (l : Str) : Str :=
  ((l.dropWhile isJsSpace).reverse.dropWhile isJsSpace).reverse

/-- JavaScript `str.slice(n, -n)` for `n = 5`, used to strip the five-backtick
fence: drop the last five characters, then the first five. -/
def sliceFive (l : Str) : Str :=
  (l.take (l.length - 5)).drop 5

/-- Substring test (`String.prototype.includes`). -/
def hasSubstr (hay needle : Str) : Bool :=
  hay.tails.any (fun t => needle.isPrefixOf t)

/- ------------------------------------------------------------------ -/
/- Data model for the parsed trace, as consumed by the agent.          -/
/- ------------------------------------------------------------------ -/

/-- A network request of the parsed trace as the agent consumes it: its URL
(`request.args.data.url`) and the eventKey that
`focus.eventsSerializer.keyForEvent(request)` assigns to it (`none` when the
serializer yields null). The serializer itself lives outside the embedded
sources; its per-request answer is carried in the `key` field. -/
structure NetworkRequest where
  url : Str
  key : Option Str
deriving DecidableEq, Repr

/-- The slice of `Trace.TraceModel.ParsedTrace` the agent reads:
whether `parsedTrace.insights` is present, the `Meta.traceBounds`, and
`NetworkRequests.byTime`. -/
structure ParsedTrace where
  insightsPresent : Bool
  traceBoundsMin : Int
  traceBoundsMax : Int
  networkRequestsByTime : List NetworkRequest
deriving DecidableEq, Repr

/-- A trace event, abstract except for its object identity. -/
structure Event where
  id : Nat
deriving DecidableEq, Repr

/-- An insight model: object identity plus its `insightKey` string. -/
structure Insight where
  id : Nat
  insightKey : Str
deriving DecidableEq, Repr

/-- An `AICallTree`: object identity (for the `WeakSet` membership test of
`enhanceQuery`), the result of its `serialize()` method, and the parsed trace
it was built over (`callTree.parsedTrace`). -/
structure AICallTree where
  id : Nat
  serialized : Str
  parsedTrace : ParsedTrace
deriving DecidableEq, Repr

/- ------------------------------------------------------------------ -/
/- AgentFocus (ai_assistance/performance/AIContext.ts).                -/
/- ------------------------------------------------------------------ -/

/-- `AgentFocusData` of AIContext.ts. The source comments on both the `event`
and `callTree` fields: "Note: at most one of event or callTree is non-null." -/
structure AgentFocusData where
  parsedTrace : ParsedTrace
  event : Option Event
  callTree : Option AICallTree
  insight : Option Insight
deriving DecidableEq, Repr

/-- An `AgentFocus` object: explicit identity (JavaScript object identity,
used as the key of the agent's per-focus maps) plus its data. -/
structure AgentFocus where
  id : Nat
  data : AgentFocusData
deriving DecidableEq, Repr

/-- `AgentFocus.#getCallTreeOrEvent`: if the event yields a call tree, return
that call tree and a null event; otherwise return the event itself only when
it is a synthetic network request; otherwise both null. `AICallTree.fromEvent`
and `Trace.Types.Events.isSyntheticNetworkRequest` are external and passed as
parameters. Returns `(callTree, event)`. -/
def getCallTreeOrEvent (fromEventFn : Event → ParsedTrace → Option AICallTree)
    (isSyntheticNetworkRequest : Event → Bool) (pt : ParsedTrace) (event : Option Event) :
    Option AICallTree × Option Event :=
  match event with
  | none => (none, none)
  | some e =>
    match fromEventFn e pt with
    | some callTree => (some callTree, none)
    | none =>
      if isSyntheticNetworkRequest e then (none, some e) else (none, none)

/-- `AgentFocus.fromParsedTrace`. The static method and the constructor both
throw `missing insights` when `parsedTrace.insights` is absent; the two
identical guards are collapsed into one. The fresh object identity is passed
explicitly. -/
def AgentFocus.fromParsedTrace (oid : Nat) (pt : ParsedTrace) : Except Str AgentFocus :=
  if !pt.insightsPresent then .error (str "missing insights")
  else .ok ⟨oid, ⟨pt, none, none, none⟩⟩

/-- `AgentFocus.fromInsight`. -/
def AgentFocus.fromInsight (oid : Nat) (pt : ParsedTrace) (insight : Insight) :
    Except Str AgentFocus :=
  if !pt.insightsPresent then .error (str "missing insights")
  else .ok ⟨oid, ⟨pt, none, none, some insight⟩⟩

/-- `AgentFocus.fromEvent`. -/
def AgentFocus.fromEvent (fromEventFn : Event → ParsedTrace → Option AICallTree)
    (isSyntheticNetworkRequest : Event → Bool) (oid : Nat) (pt : ParsedTrace) (event : Event) :
    Except Str AgentFocus :=
  if !pt.insightsPresent then .error (str "missing insights")
  else
    let result := getCallTreeOrEvent fromEventFn isSyntheticNetworkRequest pt (some event)
    .ok ⟨oid, ⟨pt, result.2, result.1, none⟩⟩

/-- `AgentFocus.fromCallTree`: the static method itself has no insights guard,
but the constructor it calls checks `data.parsedTrace.insights`. -/
def AgentFocus.fromCallTree (oid : Nat) (callTree : AICallTree) : Except Str AgentFocus :=
  if !callTree.parsedTrace.insightsPresent then .error (str "missing insights")
  else .ok ⟨oid, ⟨callTree.parsedTrace, none, some callTree, none⟩⟩

/-- `AgentFocus.withInsight`: re-wraps the same data with the insight field
replaced (the constructor re-checks the insights guard). -/
def AgentFocus.withInsight (oid : Nat) (focus : AgentFocus) (insight : Option Insight) :
    Except Str AgentFocus :=
  if !focus.data.parsedTrace.insightsPresent then .error (str "missing insights")
  else .ok ⟨oid, { focus.data with insight := insight }⟩

/-- `AgentFocus.withEvent`: recomputes both the `callTree` and `event` fields
through `#getCallTreeOrEvent`. -/
def AgentFocus.withEvent (fromEventFn : Event → ParsedTrace → Option AICallTree)
    (isSyntheticNetworkRequest : Event → Bool) (oid : Nat) (focus : AgentFocus)
    (event : Option Event) : Except Str AgentFocus :=
  if !focus.data.parsedTrace.insightsPresent then .error (str "missing insights")
  else
    let result := getCallTreeOrEvent fromEventFn isSyntheticNetworkRequest
      focus.data.parsedTrace event
    .ok ⟨oid, { focus.data with callTree := result.1, event := result.2 }⟩

/-- The documented `AgentFocusData` restriction: at most one of `event` and
`callTree` is non-null. -/
def atMostOneFocus (d : AgentFocusData) : Prop :=
  d.event = none ∨ d.callTree = none

/-- `AgentFocus.lookupEvent`: calls the events serializer (external, passed as
`eventForKey`, which either yields an event or throws an error message) and
converts the two unknown-key error messages into a null result; any other
error is rethrown (`.error`). -/
def lookupEvent (eventForKey : Str → Except Str Event) (key : Str) :
    Except Str (Option Event) :=
  match eventForKey key with
  | .ok event => .ok (some event)
  | .error err =>
    if hasSubstr err (str "Unknown trace event") || hasSubstr err (str "Unknown profile call") then
      .ok none
    else
      .error err

/-- C9: every `AgentFocus` produced by `fromParsedTrace`, `fromInsight`,
`fromEvent`, `fromCallTree`, `withInsight` or `withEvent` satisfies the
invariant that at most one of its `event` and `callTree` fields is non-null
(for `withInsight`, which copies the two fields, the input focus is assumed to
satisfy the invariant). -/
theorem c9_focus_at_most_one_of_event_call_tree :
    (∀ oid pt f, AgentFocus.fromParsedTrace oid pt = .ok f → atMostOneFocus f.data) ∧
    (∀ oid pt ins f, AgentFocus.fromInsight oid pt ins = .ok f → atMostOneFocus f.data) ∧
    (∀ fn isSyn oid pt e f, AgentFocus.fromEvent fn isSyn oid pt e = .ok f →
      atMostOneFocus f.data) ∧
    (∀ oid ct f, AgentFocus.fromCallTree oid ct = .ok f → atMostOneFocus f.data) ∧
    (∀ oid focus ins f, atMostOneFocus focus.data →
      AgentFocus.withInsight oid focus ins = .ok f → atMostOneFocus f.data) ∧
    (∀ fn isSyn oid focus e f, AgentFocus.withEvent fn isSyn oid focus e = .ok f →
      atMostOneFocus f.data) := by
  refine ⟨?_, ?_, ?_, ?_, ?_, ?_⟩
  · intro oid pt f h
    unfold AgentFocus.fromParsedTrace at h
    split at h
    · exact absurd h (by simp)
    · cases h; exact Or.inl rfl
  · intro oid pt ins f h
    unfold AgentFocus.fromInsight at h
    split at h
    · exact absurd h (by simp)
    · cases h; exact Or.inl rfl
  · intro fn isSyn oid pt e f h
    unfold AgentFocus.fromEvent at h
    split at h
    · exact absurd h (by simp)
    · cases h
      unfold getCallTreeOrEvent
      cases hct : fn e pt with
      | some ct => simp [hct, atMostOneFocus]
      | none =>
        by_cases hs : isSyn e = true <;>
          simp [hct, hs, atMostOneFocus]
  · intro oid ct f h
    unfold AgentFocus.fromCallTree at h
    split at h
    · exact absurd h (by simp)
    · cases h; exact Or.inl rfl
  · intro oid focus ins f hinv h
    unfold AgentFocus.withInsight at h
    split at h
    · exact absurd h (by simp)
    · cases h; exact hinv
  · intro fn isSyn oid focus e f h
    unfold AgentFocus.withEvent at h
    split at h
    · exact absurd h (by simp)
    · cases h
      unfold getCallTreeOrEvent
      cases e with
      | none => exact Or.inl rfl
      | some ev =>
        cases hct : fn ev focus.data.parsedTrace with
        | some ct => simp [hct, atMostOneFocus]
        | none =>
          by_cases hs : isSyn ev = true <;>
            simp [hct, hs, atMostOneFocus]

/-- Witness for C9 at concrete inputs: a parsed trace with insights present,
one event that forms a call tree and one focus update through `withInsight`. -/
theorem c9_focus_at_most_one_of_event_call_tree_witness :
    atMostOneFocus (AgentFocus.mk 0 ⟨⟨true, 0, 10, []⟩, none, none, none⟩).data ∧
    atMostOneFocus (AgentFocus.mk 1 ⟨⟨true, 0, 10, []⟩, none, none, some ⟨5, str "LCPBreakdown"⟩⟩).data ∧
    atMostOneFocus (AgentFocus.mk 2
      ⟨⟨true, 0, 10, []⟩, none, some ⟨7, str "1;main;500;100;;", ⟨true, 0, 10, []⟩⟩, none⟩).data := by
  refine ⟨?_, ?_, ?_⟩
  · exact c9_focus_at_most_one_of_event_call_tree.1 0 ⟨true, 0, 10, []⟩ _ rfl
  · exact c9_focus_at_most_one_of_event_call_tree.2.1 1 ⟨true, 0, 10, []⟩
      ⟨5, str "LCPBreakdown"⟩ _ rfl
  · exact c9_focus_at_most_one_of_event_call_tree.2.2.2.2.1 2
      ⟨1, ⟨⟨true, 0, 10, []⟩, none, some ⟨7, str "1;main;500;100;;", ⟨true, 0, 10, []⟩⟩, none⟩⟩
      none _ (Or.inl rfl) rfl

/- ------------------------------------------------------------------ -/
/- PerformanceAgent.#parseForKnownUrls: the URL rewriting pass.        -/
/- The regex (\[(.*?)\]\((.*?)\))|(https?:\/\/[^\s<>()]+) is embedded  -/
/- as an explicit left-to-right scanner with JavaScript backtracking   -/
/- semantics ('.' does not match a newline; the lazy (.*?) groups try  -/
/- successive closing positions in order; alternative 1 is preferred). -/
/- ------------------------------------------------------------------ -/

/-- Character class `[^\s<>()]` of the standalone-URL alternative. -/
def isUrlChar (c : Char) : Bool :=
  !isJsSpace c && c != '<' && c != '>' && c != '(' && c != ')'

/-- Lazy scan for the first occurrence of `stop` on the current line (the
regex `(.*?)` cannot cross a newline): returns the characters before the
first `stop` and the remainder after it. -/
def splitAtStop (stop : Char) : Str → Option (Str × Str)
  | [] => none
  | c :: cs =>
    if c = stop then some ([], cs)
    else if c = '\n' then none
    else
      match splitAtStop stop cs with
      | some (a, b) => some (c :: a, b)
      | none => none

/-- Backtracking search for `(.*?)\]\((.*?)\)` after the opening bracket:
tries each `]` candidate on the current line in order; a candidate succeeds
when it is immediately followed by `(` and a `)` is found on the same line;
otherwise the `]` is absorbed into the link text and the search continues.
Returns `(link text, link destination, remainder)`. -/
def mdTryClose (acc : Str) : Str → Option (Str × Str × Str)
  | [] => none
  | c :: cs =>
    if c = '\n' then none
    else if c = ']' then
      match cs with
      | '(' :: cs2 =>
        (match splitAtStop ')' cs2 with
         | some (dest, rest) => some (acc, dest, rest)
         | none => mdTryClose (acc ++ [c]) cs)
      | _ => mdTryClose (acc ++ [c]) cs
    else mdTryClose (acc ++ [c]) cs

/-- A match of the regex at the current position: either a full markdown link
(groups 1-3) or a standalone URL (group 4), with the text it consumed and the
remainder of the input. -/
inductive UrlMatch where
  | markdown (whole text dest rest : Str)
  | bare (whole rest : Str)
deriving DecidableEq, Repr

/-- The remainder of the input after a match. -/
def UrlMatch.rest : UrlMatch → Str
  | .markdown _ _ _ r => r
  | .bare _ r => r

/-- Alternative 1, `\[(.*?)\]\((.*?)\)`, at the current position. -/
def matchMarkdownFrom (l : Str) : Option UrlMatch :=
  match l with
  | c :: rest =>
    if c = '[' then
      match mdTryClose [] rest with
      | some (text, dest, rest2) =>
        some (.markdown ('[' :: text ++ str "](" ++ dest ++ str ")") text dest rest2)
      | none => none
    else none
  | [] => none

/-- Alternative 2, `https?:\/\/[^\s<>()]+`, at the current position. The
optional `s` backtracks as in the regex engine: a literal `https://` scheme is
preferred, a literal `http://` is the only alternative, and the character
class must then match at least one character. -/
def matchUrlFrom (l : Str) : Option UrlMatch :=
  if (str "https://").isPrefixOf l then
    let rest := l.drop 8
    let p := rest.takeWhile isUrlChar
    if p = [] then none
    else some (.bare (str "https://" ++ p) (rest.dropWhile isUrlChar))
  else if (str "http://").isPrefixOf l then
    let rest := l.drop 7
    let p := rest.takeWhile isUrlChar
    if p = [] then none
    else some (.bare (str "http://" ++ p) (rest.dropWhile isUrlChar))
  else none

/-- The regex alternation at the current position: the markdown-link
alternative is tried first. -/
def tryMatchAt (l : Str) : Option UrlMatch :=
  match matchMarkdownFrom l with
  | some m => some m
  | none => matchUrlFrom l

/-- The common tail of the replace callback: `urlText` is the link destination
(markdown case) or the whole standalone URL; an empty destination is falsy and
keeps the match; otherwise the first network request of the focus with exactly
this URL is looked up, its serializer key fetched, and the match rewritten to
an internal `[urlText](#eventKey)` link; any failure keeps the match. -/
def rewriteUrlText (requests : List NetworkRequest) (whole urlText : Str) : Str :=
  if urlText = [] then whole
  else
    match requests.find? (fun r => r.url == urlText) with
    | none => whole
    | some request =>
      match request.key with
      | none => whole
      | some eventKey => '[' :: urlText ++ str "](#" ++ eventKey ++ str ")"

/-- The replace callback of `#parseForKnownUrls`: a markdown link whose
destination starts with `#` is kept; otherwise the destination (or the bare
URL) goes through `rewriteUrlText`. -/
def replaceCallback (requests : List NetworkRequest) : UrlMatch → Str
  | .markdown whole _text dest _ =>
    if dest.head? = some '#' then whole
    else rewriteUrlText requests whole dest
  | .bare whole _ => rewriteUrlText requests whole whole

/-- `String.prototype.replace` with the global regex: scan left to right,
rewriting each match and resuming after it. Fuel-based so that the kernel can
evaluate it; every step consumes at least one character, so fuel equal to the
input length suffices. -/
def rewriteScanF (requests : List NetworkRequest) : Nat → Str → Str
  | 0, l => l
  | _ + 1, [] => []
  | fuel + 1, c :: cs =>
    match tryMatchAt (c :: cs) with
    | some m => replaceCallback requests m ++ rewriteScanF requests fuel m.rest
    | none => c :: rewriteScanF requests fuel cs

/-- `PerformanceAgent.#parseForKnownUrls`: without a conversation context the
response is returned unchanged; otherwise each regex match is rewritten
against the focus's network requests. -/
def parseForKnownUrls (context : Option AgentFocus) (response : Str) : Str :=
  match context with
  | none => response
  | some focus =>
    rewriteScanF focus.data.parsedTrace.networkRequestsByTime (response.length + 1) response

/-- The five-backtick sentinel `FIVE_BACKTICKS` of `parseTextResponse`. -/
def FIVE_BACKTICKS : Str := List.replicate 5 '\x60'

/-- Modelled from the spec: the base `AiAgent.parseTextResponse` (the class
lives outside the embedded sources) packages the response text unchanged; only
the text component matters to the claims, so it is the identity on text. -/
def baseParseTextResponse (response : Str) : Str := response

/-- `PerformanceAgent.parseTextResponse`: first the URL rewriting pass, then,
when the trimmed response both starts and ends with the five-backtick
sentinel, the outer fence of the trimmed text is stripped
(`trimmed.slice(5, -5)`); otherwise the (rewritten) response is passed through
unchanged. -/
def parseTextResponse (context : Option AgentFocus) (response : Str) : Str :=
  let response := parseForKnownUrls context response
  let trimmed := jsTrim response
  if FIVE_BACKTICKS.isPrefixOf trimmed && FIVE_BACKTICKS.isSuffixOf trimmed then
    baseParseTextResponse (sliceFive trimmed)
  else
    baseParseTextResponse response

/- ------------------------------------------------------------------ -/
/- Helper lemmas about the string primitives.                          -/
/- ------------------------------------------------------------------ -/

theorem isPrefixOf_append_self (p l : Str) : p.isPrefixOf (p ++ l) = true := by
  induction p with
  | nil => simp [List.isPrefixOf]
  | cons c cs ih => simp [List.isPrefixOf, ih]

theorem isSuffixOf_append_self (p l : Str) : p.isSuffixOf (l ++ p) = true := by
  unfold List.isSuffixOf
  rw [List.reverse_append]
  exact isPrefixOf_append_self p.reverse l.reverse

theorem take_append_len (l₁ l₂ : Str) (k : Nat) :
    (l₁ ++ l₂).take (l₁.length + k) = l₁ ++ l₂.take k := by
  induction l₁ with
  | nil => simp
  | cons c cs ih => simp [List.length_cons, Nat.succ_add, ih]

theorem drop_append_len (l₁ l₂ : Str) (k : Nat) :
    (l₁ ++ l₂).drop (l₁.length + k) = l₂.drop k := by
  induction l₁ with
  | nil => simp
  | cons c cs ih => simp [List.length_cons, Nat.succ_add, ih]

theorem takeWhile_all (p : Char → Bool) :
    ∀ l : Str, (∀ c ∈ l, p c = true) → l.takeWhile p = l := by
  intro l
  induction l with
  | nil => intro _; rfl
  | cons c cs ih =>
    intro h
    have hc := h c (by simp)
    simp [List.takeWhile_cons, hc, ih (fun x hx => h x (by simp [hx]))]

theorem dropWhile_all (p : Char → Bool) :
    ∀ l : Str, (∀ c ∈ l, p c = true) → l.dropWhile p = [] := by
  intro l
  induction l with
  | nil => intro _; rfl
  | cons c cs ih =>
    intro h
    have hc := h c (by simp)
    simp [List.dropWhile_cons, hc, ih (fun x hx => h x (by simp [hx]))]

/- ------------------------------------------------------------------ -/
/- Behaviour of the regex scanner on a whole-match input.              -/
/- ------------------------------------------------------------------ -/

/-- The literal text of a markdown link `[text](dest)`. -/
def mdLinkStr (text dest : Str) : Str :=
  '[' :: text ++ str "](" ++ dest ++ str ")"

/-- The internal cross-reference link `[urlText](#eventKey)` produced by the
rewriting pass. -/
def internalLink (urlText eventKey : Str) : Str :=
  '[' :: urlText ++ str "](#" ++ eventKey ++ str ")"

/-- A bare URL with the `https://` scheme. -/
def httpsUrl (tail : Str) : Str := str "https://" ++ tail

theorem splitAtStop_spec (stop : Char) :
    ∀ (dest tail : Str), (∀ c ∈ dest, c ≠ stop ∧ c ≠ '\n') →
      splitAtStop stop (dest ++ stop :: tail) = some (dest, tail) := by
  intro dest
  induction dest with
  | nil => intro tail _; simp [splitAtStop]
  | cons c cs ih =>
    intro tail h
    have hc := h c (by simp)
    rw [List.cons_append]
    unfold splitAtStop
    rw [if_neg hc.1, if_neg hc.2, ih tail (fun x hx => h x (by simp [hx]))]

theorem mdTryClose_spec :
    ∀ (text acc dest tail : Str), (∀ c ∈ text, c ≠ '\n' ∧ c ≠ ']') →
      (∀ c ∈ dest, c ≠ ')' ∧ c ≠ '\n') →
      mdTryClose acc (text ++ ']' :: '(' :: (dest ++ ')' :: tail)) =
        some (acc ++ text, dest, tail) := by
  intro text
  induction text with
  | nil =>
    intro acc dest tail _ hdest
    rw [List.nil_append]
    unfold mdTryClose
    rw [if_neg (by decide), if_pos rfl]
    simp [splitAtStop_spec ')' dest tail hdest]
  | cons c cs ih =>
    intro acc dest tail htext hdest
    have hc := htext c (by simp)
    rw [List.cons_append]
    unfold mdTryClose
    rw [if_neg hc.1]
    rw [if_neg hc.2]
    rw [ih (acc ++ [c]) dest tail (fun x hx => htext x (by simp [hx])) hdest]
    simp

theorem matchMarkdownFrom_cons (c : Char) (rest : Str) :
    matchMarkdownFrom (c :: rest) =
      (if c = '[' then
        match mdTryClose [] rest with
        | some (text, dest, rest2) =>
          some (.markdown ('[' :: text ++ str "](" ++ dest ++ str ")") text dest rest2)
        | none => none
      else none) := rfl

theorem matchMarkdownFrom_mdLink (text dest : Str)
    (htext : ∀ c ∈ text, c ≠ '\n' ∧ c ≠ ']')
    (hdest : ∀ c ∈ dest, c ≠ ')' ∧ c ≠ '\n') :
    matchMarkdownFrom (mdLinkStr text dest) =
      some (.markdown (mdLinkStr text dest) text dest []) := by
  have harr : text ++ str "](" ++ dest ++ str ")" =
      text ++ ']' :: '(' :: (dest ++ ')' :: []) := by
    simp [str, List.append_assoc]
  unfold mdLinkStr
  simp only [List.cons_append]
  rw [matchMarkdownFrom_cons, if_pos rfl, harr, mdTryClose_spec text [] dest [] htext hdest]
  simp [harr, str]

theorem rewriteScanF_nil (requests : List NetworkRequest) (fuel : Nat) :
    rewriteScanF requests fuel [] = [] := by
  cases fuel <;> rfl

theorem matchMarkdownFrom_httpsUrl (tail : Str) :
    matchMarkdownFrom (httpsUrl tail) = none := by
  have h : httpsUrl tail = 'h' :: (str "ttps://" ++ tail) := by simp [httpsUrl, str]
  rw [h, matchMarkdownFrom_cons, if_neg (by decide)]

theorem matchUrlFrom_httpsUrl (tail : Str) (hne : tail ≠ [])
    (hall : ∀ c ∈ tail, isUrlChar c = true) :
    matchUrlFrom (httpsUrl tail) = some (.bare (httpsUrl tail) []) := by
  unfold matchUrlFrom httpsUrl
  rw [if_pos (isPrefixOf_append_self (str "https://") tail)]
  have hdrop : (str "https://" ++ tail).drop 8 = tail := by
    have h8 : (8 : Nat) = (str "https://").length + 0 := rfl
    rw [h8, drop_append_len, List.drop_zero]
  simp only [hdrop, takeWhile_all isUrlChar tail hall, dropWhile_all isUrlChar tail hall]
  rw [if_neg hne]

theorem tryMatchAt_mdLink (text dest : Str)
    (htext : ∀ c ∈ text, c ≠ '\n' ∧ c ≠ ']')
    (hdest : ∀ c ∈ dest, c ≠ ')' ∧ c ≠ '\n') :
    tryMatchAt (mdLinkStr text dest) =
      some (.markdown (mdLinkStr text dest) text dest []) := by
  unfold tryMatchAt
  rw [matchMarkdownFrom_mdLink text dest htext hdest]

theorem tryMatchAt_httpsUrl (tail : Str) (hne : tail ≠ [])
    (hall : ∀ c ∈ tail, isUrlChar c = true) :
    tryMatchAt (httpsUrl tail) = some (.bare (httpsUrl tail) []) := by
  unfold tryMatchAt
  rw [matchMarkdownFrom_httpsUrl, matchUrlFrom_httpsUrl tail hne hall]

theorem rewriteScanF_step (requests : List NetworkRequest) (fuel : Nat) (l : Str)
    (m : UrlMatch) (hl : l ≠ []) (hm : tryMatchAt l = some m) :
    rewriteScanF requests (fuel + 1) l =
      replaceCallback requests m ++ rewriteScanF requests fuel m.rest := by
  cases l with
  | nil => exact absurd rfl hl
  | cons c cs => simp [rewriteScanF, hm]

theorem parseForKnownUrls_some (focus : AgentFocus) (response : Str) :
    parseForKnownUrls (some focus) response =
      rewriteScanF focus.data.parsedTrace.networkRequestsByTime
        (response.length + 1) response := rfl

theorem parseForKnownUrls_mdLink (focus : AgentFocus) (text dest : Str)
    (htext : ∀ c ∈ text, c ≠ '\n' ∧ c ≠ ']')
    (hdest : ∀ c ∈ dest, c ≠ ')' ∧ c ≠ '\n') :
    parseForKnownUrls (some focus) (mdLinkStr text dest) =
      replaceCallback focus.data.parsedTrace.networkRequestsByTime
        (.markdown (mdLinkStr text dest) text dest []) := by
  rw [parseForKnownUrls_some]
  rw [rewriteScanF_step _ _ _ _ (by simp [mdLinkStr]) (tryMatchAt_mdLink text dest htext hdest)]
  simp [UrlMatch.rest, rewriteScanF_nil]

theorem parseForKnownUrls_httpsUrl (focus : AgentFocus) (tail : Str) (hne : tail ≠ [])
    (hall : ∀ c ∈ tail, isUrlChar c = true) :
    parseForKnownUrls (some focus) (httpsUrl tail) =
      replaceCallback focus.data.parsedTrace.networkRequestsByTime
        (.bare (httpsUrl tail) []) := by
  rw [parseForKnownUrls_some]
  rw [rewriteScanF_step _ _ _ _ (by simp [httpsUrl, str]) (tryMatchAt_httpsUrl tail hne hall)]
  simp [UrlMatch.rest, rewriteScanF_nil]

/-- C5: URL rewriting of `#parseForKnownUrls`. For a response consisting of a
markdown link `[text](dest)` (well-formed for the regex: the text contains no
newline or closing bracket, the destination no newline or closing
parenthesis): a destination starting with `#` is left unchanged; a destination
exactly matching the URL of a known network request of the focus (with a
serializer key) is rewritten to the internal link `[dest](#eventKey)`; a
destination matching no known request passes through unchanged. For a
response consisting of a bare `https://` URL: a known URL is rewritten to
`[url](#eventKey)`; an unknown one passes through unchanged. -/
theorem c5_known_url_rewriting :
    (∀ (focus : AgentFocus) (text dest : Str),
      (∀ c ∈ text, c ≠ '\n' ∧ c ≠ ']') → (∀ c ∈ dest, c ≠ ')' ∧ c ≠ '\n') →
      dest.head? = some '#' →
      parseForKnownUrls (some focus) (mdLinkStr text dest) = mdLinkStr text dest) ∧
    (∀ (focus : AgentFocus) (text dest : Str) (request : NetworkRequest) (eventKey : Str),
      (∀ c ∈ text, c ≠ '\n' ∧ c ≠ ']') → (∀ c ∈ dest, c ≠ ')' ∧ c ≠ '\n') →
      dest.head? ≠ some '#' → dest ≠ [] →
      focus.data.parsedTrace.networkRequestsByTime.find? (fun r => r.url == dest) =
        some request →
      request.key = some eventKey →
      parseForKnownUrls (some focus) (mdLinkStr text dest) = internalLink dest eventKey) ∧
    (∀ (focus : AgentFocus) (text dest : Str),
      (∀ c ∈ text, c ≠ '\n' ∧ c ≠ ']') → (∀ c ∈ dest, c ≠ ')' ∧ c ≠ '\n') →
      dest.head? ≠ some '#' →
      focus.data.parsedTrace.networkRequestsByTime.find? (fun r => r.url == dest) = none →
      parseForKnownUrls (some focus) (mdLinkStr text dest) = mdLinkStr text dest) ∧
    (∀ (focus : AgentFocus) (tail : Str) (request : NetworkRequest) (eventKey : Str),
      tail ≠ [] → (∀ c ∈ tail, isUrlChar c = true) →
      focus.data.parsedTrace.networkRequestsByTime.find?
          (fun r => r.url == httpsUrl tail) = some request →
      request.key = some eventKey →
      parseForKnownUrls (some focus) (httpsUrl tail) =
        internalLink (httpsUrl tail) eventKey) ∧
    (∀ (focus : AgentFocus) (tail : Str),
      tail ≠ [] → (∀ c ∈ tail, isUrlChar c = true) →
      focus.data.parsedTrace.networkRequestsByTime.find?
          (fun r => r.url == httpsUrl tail) = none →
      parseForKnownUrls (some focus) (httpsUrl tail) = httpsUrl tail) := by
  refine ⟨?_, ?_, ?_, ?_, ?_⟩
  · intro focus text dest htext hdest hhash
    rw [parseForKnownUrls_mdLink focus text dest htext hdest]
    simp [replaceCallback, hhash]
  · intro focus text dest request eventKey htext hdest hhash hne hfind hkey
    rw [parseForKnownUrls_mdLink focus text dest htext hdest]
    simp [replaceCallback, hhash, rewriteUrlText, hne, hfind, hkey, internalLink]
  · intro focus text dest htext hdest hhash hfind
    rw [parseForKnownUrls_mdLink focus text dest htext hdest]
    by_cases hne : dest = []
    · simp [replaceCallback, hhash, rewriteUrlText, hne]
    · simp [replaceCallback, hhash, rewriteUrlText, hne, hfind]
  · intro focus tail request eventKey hne hall hfind hkey
    rw [parseForKnownUrls_httpsUrl focus tail hne hall]
    have hwne : httpsUrl tail ≠ [] := by simp [httpsUrl, str]
    simp [replaceCallback, rewriteUrlText, hwne, hfind, hkey, internalLink]
  · intro focus tail hne hall hfind
    rw [parseForKnownUrls_httpsUrl focus tail hne hall]
    have hwne : httpsUrl tail ≠ [] := by simp [httpsUrl, str]
    simp [replaceCallback, rewriteUrlText, hwne, hfind]

/-- Witness for C5 at concrete inputs: a focus knowing the request
`https://a.com` with key `s-42`; a markdown link to it is rewritten, a bare
unknown URL passes through. -/
theorem c5_known_url_rewriting_witness :
    parseForKnownUrls
        (some ⟨3, ⟨⟨true, 0, 10, [⟨str "https://a.com", some (str "s-42")⟩]⟩, none, none, none⟩⟩)
        (mdLinkStr (str "Example") (str "https://a.com")) =
      internalLink (str "https://a.com") (str "s-42") ∧
    parseForKnownUrls
        (some ⟨3, ⟨⟨true, 0, 10, [⟨str "https://a.com", some (str "s-42")⟩]⟩, none, none, none⟩⟩)
        (httpsUrl (str "b.com")) =
      httpsUrl (str "b.com") := by
  constructor
  · exact c5_known_url_rewriting.2.1
      ⟨3, ⟨⟨true, 0, 10, [⟨str "https://a.com", some (str "s-42")⟩]⟩, none, none, none⟩⟩
      (str "Example") (str "https://a.com") ⟨str "https://a.com", some (str "s-42")⟩
      (str "s-42") (by decide) (by decide) (by decide) (by decide) (by decide) (by decide)
  · exact c5_known_url_rewriting.2.2.2.2
      ⟨3, ⟨⟨true, 0, 10, [⟨str "https://a.com", some (str "s-42")⟩]⟩, none, none, none⟩⟩
      (str "b.com") (by decide) (by decide) (by decide)

/- ------------------------------------------------------------------ -/
/- C4: fence stripping in parseTextResponse.                           -/
/- ------------------------------------------------------------------ -/

theorem parseTextResponse_eq (context : Option AgentFocus) (response : Str) :
    parseTextResponse context response =
      (if FIVE_BACKTICKS.isPrefixOf (jsTrim (parseForKnownUrls context response)) &&
          FIVE_BACKTICKS.isSuffixOf (jsTrim (parseForKnownUrls context response)) then
        baseParseTextResponse (sliceFive (jsTrim (parseForKnownUrls context response)))
      else
        baseParseTextResponse (parseForKnownUrls context response)) := rfl

theorem dropWhile_backticks (l : Str) :
    List.dropWhile isJsSpace (FIVE_BACKTICKS ++ l) = FIVE_BACKTICKS ++ l := by
  have hbt : FIVE_BACKTICKS = '\x60' :: '\x60' :: '\x60' :: '\x60' :: '\x60' :: [] := rfl
  rw [hbt]
  simp [List.dropWhile_cons, show isJsSpace '\x60' = false from by decide]

theorem reverse_backticks : FIVE_BACKTICKS.reverse = FIVE_BACKTICKS := rfl

theorem jsTrim_backtick_wrapped (inner : Str) :
    jsTrim (FIVE_BACKTICKS ++ inner ++ FIVE_BACKTICKS) =
      FIVE_BACKTICKS ++ inner ++ FIVE_BACKTICKS := by
  unfold jsTrim
  simp only [List.append_assoc, dropWhile_backticks, List.reverse_append,
    reverse_backticks, List.reverse_reverse]

theorem sliceFive_wrapped (inner : Str) :
    sliceFive (FIVE_BACKTICKS ++ inner ++ FIVE_BACKTICKS) = inner := by
  unfold sliceFive
  have hassoc : FIVE_BACKTICKS ++ inner ++ FIVE_BACKTICKS
      = FIVE_BACKTICKS ++ (inner ++ FIVE_BACKTICKS) := by simp
  have hlen : (FIVE_BACKTICKS ++ (inner ++ FIVE_BACKTICKS)).length - 5
      = FIVE_BACKTICKS.length + inner.length := by
    simp [FIVE_BACKTICKS]
    omega
  rw [hassoc, hlen, take_append_len]
  have htake : (inner ++ FIVE_BACKTICKS).take inner.length = inner := by
    have h0 := take_append_len inner FIVE_BACKTICKS 0
    simpa using h0
  rw [htake]
  have h5 : (5 : Nat) = FIVE_BACKTICKS.length + 0 := rfl
  rw [h5, drop_append_len, List.drop_zero]

/-- C4 (amended): with no conversation context the URL rewriting pass is the
identity, and then `parseTextResponse` strips exactly the outer five-backtick
fence of a wrapped response, preserving the inner content verbatim, while a
response whose trimmed form is not wrapped in the sentinel is passed through
unchanged. -/
theorem c4_fence_strip_without_focus :
    (∀ inner : Str,
      parseTextResponse none (FIVE_BACKTICKS ++ inner ++ FIVE_BACKTICKS) = inner) ∧
    (∀ response : Str,
      (FIVE_BACKTICKS.isPrefixOf (jsTrim response) &&
        FIVE_BACKTICKS.isSuffixOf (jsTrim response)) = false →
      parseTextResponse none response = response) := by
  constructor
  · intro inner
    rw [parseTextResponse_eq]
    rw [show parseForKnownUrls none (FIVE_BACKTICKS ++ inner ++ FIVE_BACKTICKS)
        = FIVE_BACKTICKS ++ inner ++ FIVE_BACKTICKS from rfl]
    rw [jsTrim_backtick_wrapped]
    have h1 : FIVE_BACKTICKS.isPrefixOf (FIVE_BACKTICKS ++ inner ++ FIVE_BACKTICKS) = true := by
      have h := isPrefixOf_append_self FIVE_BACKTICKS (inner ++ FIVE_BACKTICKS)
      simpa [List.append_assoc] using h
    have h2 := isSuffixOf_append_self FIVE_BACKTICKS (FIVE_BACKTICKS ++ inner)
    rw [if_pos (by rw [h1, h2]; rfl)]
    exact sliceFive_wrapped inner
  · intro response hcond
    rw [parseTextResponse_eq]
    rw [show parseForKnownUrls none response = response from rfl]
    rw [if_neg (by simp [hcond])]
    rfl

/-- Witness for C4's amended theorem: a wrapped and an unwrapped concrete
response. -/
theorem c4_fence_strip_without_focus_witness :
    parseTextResponse none (FIVE_BACKTICKS ++ str "hello" ++ FIVE_BACKTICKS) = str "hello" ∧
    parseTextResponse none (str "plain answer") = str "plain answer" :=
  ⟨c4_fence_strip_without_focus.1 (str "hello"),
   c4_fence_strip_without_focus.2 (str "plain answer") (by decide)⟩

/-- The focus of the C4 counterexample: it knows the network request
`https://a.com` under the eventKey `r-4`. -/
def focusC4 : AgentFocus :=
  ⟨9, ⟨⟨true, 0, 10, [⟨str "https://a.com", some (str "r-4")⟩]⟩, none, none, none⟩⟩

/-- C4 counterexample: the response is wrapped entirely in the five-backtick
sentinel, yet `parseTextResponse` does not preserve the inner content
verbatim, because the URL rewriting pass runs first and rewrites the known
URL inside the fence. -/
theorem c4_counterexample :
    parseTextResponse (some focusC4)
        (FIVE_BACKTICKS ++ str "\nhttps://a.com\n" ++ FIVE_BACKTICKS) ≠
      str "\nhttps://a.com\n" ∧
    parseTextResponse (some focusC4)
        (FIVE_BACKTICKS ++ str "\nhttps://a.com\n" ++ FIVE_BACKTICKS) =
      str "\n[https://a.com](#r-4)\n" := by
  constructor
  · decide
  · decide

/- ------------------------------------------------------------------ -/
/- PerformanceAgent: state, fact store, cache and handlers.            -/
/- ------------------------------------------------------------------ -/

def ScorePriority.REQUIRED : Nat := 3

def ScorePriority.CRITICAL : Nat := 2

def ScorePriority.DEFAULT : Nat := 1

/-- `MAX_FUNCTION_RESULT_BYTE_LENGTH`: "16k Tokens * ~4 char per token." -/
def MAX_FUNCTION_RESULT_BYTE_LENGTH : Nat := 16384 * 4

/-- A `Host.AidaClient.RequestFact`: the fact text plus its metadata
(`source` and `score`). -/
structure RequestFact where
  text : Str
  source : Str
  score : Nat
deriving DecidableEq, Repr

/-- Text of `extraPreambleWhenNotExternal` (the prose is abridged to its
heading; its content is opaque to every claim). -/
def extraPreambleWhenNotExternal : Str := str "Additional notes:"

/-- Text of `PerformanceTraceFormatter.networkDataFormatDescription` (external
constant; opaque to every claim). -/
def networkDataFormatDescription : Str := str "network data format description"

/-- Text of `callFrameDataFormatDescription` (abridged to its heading; opaque
to every claim). -/
def callFrameDataFormatDescription : Str :=
  str "Each call frame is presented in the following format:"

/-- `#notExternalExtraPreambleFact`. -/
def notExternalExtraPreambleFact : RequestFact :=
  ⟨extraPreambleWhenNotExternal, str "devtools", ScorePriority.CRITICAL⟩

/-- `#networkDataDescriptionFact`. -/
def networkDataDescriptionFact : RequestFact :=
  ⟨networkDataFormatDescription, str "devtools", ScorePriority.CRITICAL⟩

/-- `#callFrameDataDescriptionFact`. -/
def callFrameDataDescriptionFact : RequestFact :=
  ⟨callFrameDataFormatDescription, str "devtools", ScorePriority.CRITICAL⟩

/-- A `Trace.Types.Timing.TraceWindowMicro`. -/
structure TraceWindow where
  min : Int
  max : Int
deriving DecidableEq, Repr

/-- The `PerformanceTraceFormatter`/`PerformanceInsightFormatter` methods the
agent calls. The formatters live outside the embedded sources (the
data_formatters directory), so their outputs are parameters; a formatter
instance is `(fmt, focus)` where `focus` is the `AgentFocus` it was
constructed around. -/
structure Formatters where
  formatTraceSummary : AgentFocus → Str
  formatCriticalRequests : AgentFocus → Str
  formatMainThreadBottomUpSummary : AgentFocus → Str
  formatThirdPartySummary : AgentFocus → Str
  formatLongestTasks : AgentFocus → Str
  formatMainThreadTrackSummary : AgentFocus → TraceWindow → Str
  formatNetworkTrackSummary : AgentFocus → TraceWindow → Str

/-- A `PerformanceTraceContext`: wraps a focus; `external` distinguishes
external clients from the DevTools UI. -/
structure PerformanceTraceContext where
  focus : AgentFocus
  external : Bool
deriving DecidableEq, Repr

/-- The mutable per-conversation state of a `PerformanceAgent`:
`#hasShownAnalyzeTraceContext`, the `#formatter` (represented by the focus it
was constructed around), `#lastInsightForEnhancedQuery`, the
`#callTreeContextSet` (a `WeakSet`, modelled as the list of seen object ids),
`#traceFacts`, the base class's fact store (`facts`, modelled from the spec's
Fact Store), `#functionCallCacheForFocus` (a `Map` from focus identity to a
string-keyed record of facts), and an instrumentation counter
`handlerInvocations` that counts entries into declared-function handler
bodies. -/
structure PerformanceAgentState where
  hasShownAnalyzeTraceContext : Bool
  formatterFocus : Option AgentFocus
  lastInsightForEnhancedQuery : Option Insight
  callTreeContextSet : List Nat
  traceFacts : List RequestFact
  facts : List RequestFact
  functionCallCacheForFocus : List (Nat × List (Str × RequestFact))
  handlerInvocations : Nat
deriving DecidableEq, Repr

/-- The state of a freshly constructed agent. -/
def initialAgentState : PerformanceAgentState :=
  ⟨false, none, none, [], [], [], [], 0⟩

/-- JavaScript record update `record[key] = value`: overwrite in place
(insertion order kept), else append. -/
def recordSet (r : List (Str × RequestFact)) (k : Str) (v : RequestFact) : List (Str × RequestFact) :=
  if r.any (fun p => p.1 == k) then
    r.map (fun p => if p.1 == k then (k, v) else p)
  else r ++ [(k, v)]

/-- JavaScript `Map.prototype.get` on the focus-keyed cache. -/
def mapGet (m : List (Nat × List (Str × RequestFact))) (k : Nat) :
    Option (List (Str × RequestFact)) :=
  (m.find? (fun p => p.1 == k)).map (fun p => p.2)

/-- JavaScript `Map.prototype.set` (insertion order kept). -/
def mapSet (m : List (Nat × List (Str × RequestFact))) (k : Nat) (v : List (Str × RequestFact)) :
    List (Nat × List (Str × RequestFact)) :=
  if m.any (fun p => p.1 == k) then
    m.map (fun p => if p.1 == k then (k, v) else p)
  else m ++ [(k, v)]

/-- `PerformanceAgent.#cacheFunctionResult`: builds the fact
`This is the result of calling <key>:\n<result>` with the canonical call
string as its metadata source and DEFAULT score, and stores it in the
per-focus record under that key. -/
def cacheFunctionResult (st : PerformanceAgentState) (focus : AgentFocus)
    (key result : Str) : PerformanceAgentState :=
  let fact : RequestFact := ⟨str "This is the result of calling " ++ key ++ str ":\n" ++ result,
    key, ScorePriority.DEFAULT⟩
  let cache := (mapGet st.functionCallCacheForFocus focus.id).getD []
  { st with functionCallCacheForFocus :=
      mapSet st.functionCallCacheForFocus focus.id (recordSet cache key fact) }

/-- Modelled from the spec: the base class's Fact Store (spec 4.3) — `addFact`
accumulates a fact for the current turn. -/
def addFact (st : PerformanceAgentState) (fact : RequestFact) : PerformanceAgentState :=
  { st with facts := st.facts ++ [fact] }

/-- Modelled from the spec: the base class's `clearFacts` empties the store. -/
def clearFacts (st : PerformanceAgentState) : PerformanceAgentState :=
  { st with facts := [] }

/-- The five `#createFactFor...` helpers, in the order `#addFacts` runs them;
each contributes a fact only when its formatter text is non-empty; the trace
summary is prefixed with `Trace summary:` and REQUIRED, the rest CRITICAL. -/
def buildTraceFacts (fmt : Formatters) (focus : AgentFocus) : List RequestFact :=
  (let t := fmt.formatTraceSummary focus
   if t = [] then []
   else [⟨str "Trace summary:\n" ++ t, str "devtools", ScorePriority.REQUIRED⟩]) ++
  (let t := fmt.formatCriticalRequests focus
   if t = [] then [] else [⟨t, str "devtools", ScorePriority.CRITICAL⟩]) ++
  (let t := fmt.formatMainThreadBottomUpSummary focus
   if t = [] then [] else [⟨t, str "devtools", ScorePriority.CRITICAL⟩]) ++
  (let t := fmt.formatThirdPartySummary focus
   if t = [] then [] else [⟨t, str "devtools", ScorePriority.CRITICAL⟩]) ++
  (let t := fmt.formatLongestTasks focus
   if t = [] then [] else [⟨t, str "devtools", ScorePriority.CRITICAL⟩])

/-- `PerformanceAgent.#addFacts`: the extra preamble fact (unless the context
is external), the two static format-description facts, then the memoized
trace facts (computed from the current focus only when `#traceFacts` is still
empty, which also creates the formatter), then the cached function-call facts
of the current focus (the source's `if (cachedFunctionCalls)` guard around
the loop over `Object.values` is the `.getD []` below: a missing map entry
contributes no facts). -/
def addFacts (fmt : Formatters) (st : PerformanceAgentState)
    (context : PerformanceTraceContext) : PerformanceAgentState :=
  let focus := context.focus
  let st := if !context.external then addFact st notExternalExtraPreambleFact else st
  let st := addFact st callFrameDataDescriptionFact
  let st := addFact st networkDataDescriptionFact
  let st :=
    if st.traceFacts = [] then
      { st with formatterFocus := some focus, traceFacts := buildTraceFacts fmt focus }
    else st
  let st := st.traceFacts.foldl addFact st
  (((mapGet st.functionCallCacheForFocus focus.id).getD []).map (fun p => p.2)).foldl
    addFact st

/-- `PerformanceAgent.run` (its fact-store effect; the base-class query loop
`super.run` it then delegates to lives outside the embedded sources and does
not touch the fact store): clear the facts, then repopulate them when a
context is selected. -/
def run (fmt : Formatters) (st : PerformanceAgentState)
    (selected : Option PerformanceTraceContext) : PerformanceAgentState :=
  let st := clearFacts st
  match selected with
  | some context => addFacts fmt st context
  | none => st

/-- One detail block of a CONTEXT response. -/
structure ContextDetail where
  title : Str
  text : Str
deriving DecidableEq, Repr

/-- A CONTEXT response event (`type: ResponseType.CONTEXT`). -/
structure ContextResponse where
  title : Str
  details : List ContextDetail
deriving DecidableEq, Repr

/-- `PerformanceAgent.handleContextDetails`: yields nothing without a context
or once `#hasShownAnalyzeTraceContext` is set; otherwise yields one CONTEXT
response titled `Analyzing trace` carrying the formatter's trace summary
(`?? ''`) and sets the flag. -/
def handleContextDetails (fmt : Formatters) (st : PerformanceAgentState)
    (context : Option PerformanceTraceContext) :
    List ContextResponse × PerformanceAgentState :=
  match context with
  | none => ([], st)
  | some _ =>
    if st.hasShownAnalyzeTraceContext then ([], st)
    else
      let text :=
        match st.formatterFocus with
        | some f => fmt.formatTraceSummary f
        | none => []
      ([⟨str "Analyzing trace", [⟨str "Trace", text⟩]⟩],
        { st with hasShownAnalyzeTraceContext := true })

/-- The paragraph `enhanceQuery` pushes for a call tree. -/
def callTreeBlock (s : Str) : Str :=
  str "User selected the following call tree:\n\n" ++ s ++ str "\n\n"

/-- The paragraph `enhanceQuery` pushes for a newly selected insight. -/
def insightBlock (insightKey : Str) : Str :=
  str "User selected the " ++ insightKey ++ str " insight.\n\n"

/-- The call-tree contribution to `enhanceQuery`'s `selected` array: when the
call tree is not yet in `#callTreeContextSet` it is added and serialized; the
block is pushed only when the serialization is non-empty. -/
def callTreeParts (st : PerformanceAgentState) (focus : AgentFocus) :
    List Str × PerformanceAgentState :=
  match focus.data.callTree with
  | none => ([], st)
  | some ct =>
    if st.callTreeContextSet.contains ct.id then ([], st)
    else
      let st := { st with callTreeContextSet := st.callTreeContextSet ++ [ct.id] }
      if ct.serialized = [] then ([], st) else ([callTreeBlock ct.serialized], st)

/-- The insight contribution to `enhanceQuery`'s `selected` array: pushed only
when the insight differs by identity from `#lastInsightForEnhancedQuery`,
which is updated either way. -/
def insightParts (st : PerformanceAgentState) (focus : AgentFocus) :
    List Str × PerformanceAgentState :=
  match focus.data.insight with
  | none => ([], st)
  | some ins =>
    let includeInsightInfo :=
      match st.lastInsightForEnhancedQuery with
      | none => true
      | some last => last.id != ins.id
    let st := { st with lastInsightForEnhancedQuery := some ins }
    if includeInsightInfo then ([insightBlock ins.insightKey], st) else ([], st)

/-- `PerformanceAgent.enhanceQuery` (the declared-function re-registration it
also performs does not touch the state modelled here): without a context the
raw query is returned; otherwise the call-tree and insight paragraphs are
collected in order and, when any exists, joined with `# User query` and the
raw query appended. -/
def enhanceQuery (st : PerformanceAgentState) (context : Option PerformanceTraceContext)
    (query : Str) : Str × PerformanceAgentState :=
  match context with
  | none => (query, st)
  | some c =>
    let r1 := callTreeParts st c.focus
    let r2 := insightParts r1.2 c.focus
    let selected := r1.1 ++ r2.1
    if selected = [] then (query, r2.2)
    else ((selected ++ [str "# User query\n\n" ++ query]).flatten, r2.2)

/-- The outcome of a declared-function handler: a successful payload string
(`{result: ...}`), a function-level error (`{error: ...}`), or a thrown
exception. -/
inductive HandlerOutcome where
  | ok (text : Str)
  | err (msg : Str)
  | thrown (msg : Str)
deriving DecidableEq, Repr

/-- `PerformanceAgent.#isFunctionResponseTooLarge`. -/
def isFunctionResponseTooLarge (response : Str) : Bool :=
  response.length > MAX_FUNCTION_RESULT_BYTE_LENGTH

/-- The handler of `declareFunction('getEventByKey')`: looks up the event via
`focus.lookupEvent` (unrecognized serializer errors are rethrown), answers
`Invalid eventKey` for an unknown key, otherwise serializes the event
(`JSON.stringify`, external, passed as `stringifyEvent`), caches the result
under the canonical call string, and returns the details. The
`handlerInvocations` counter is incremented on every entry into the handler
body. -/
def getEventByKeyHandler (eventForKey : Str → Except Str Event)
    (stringifyEvent : Event → Str) (st : PerformanceAgentState) (focus : AgentFocus)
    (eventKey : Str) : HandlerOutcome × PerformanceAgentState :=
  let st := { st with handlerInvocations := st.handlerInvocations + 1 }
  match lookupEvent eventForKey eventKey with
  | .error msg => (.thrown msg, st)
  | .ok none => (.err (str "Invalid eventKey"), st)
  | .ok (some event) =>
    let details := stringifyEvent event
    let key := str "getEventByKey(\x27" ++ eventKey ++ str "\x27)"
    (.ok details, cacheFunctionResult st focus key details)

/-- The `createBounds` helper of `#declareFunctions`: null when min exceeds
max, else the requested window clamped to the trace bounds; null again when
the clamped window is empty. (The `min ?? 0` and `max ?? Infinity` fallbacks
of the source are dead code: both parameters are declared non-nullable.) -/
def createBounds (pt : ParsedTrace) (argMin argMax : Int) : Option TraceWindow :=
  if argMin > argMax then none
  else
    let clampedMin := Max.max argMin pt.traceBoundsMin
    let clampedMax := Min.min argMax pt.traceBoundsMax
    if clampedMin > clampedMax then none
    else some ⟨clampedMin, clampedMax⟩

/-- Decimal rendering of an integer, for the canonical call strings. -/
def intStr (i : Int) : Str := (toString i).data

/-- The handler of `declareFunction('getMainThreadTrackSummary')`: throws
without a formatter; `invalid bounds` when `createBounds` yields null;
rejects an oversized summary with the narrowing error; otherwise caches and
returns the summary. -/
def getMainThreadTrackSummaryHandler (fmt : Formatters) (st : PerformanceAgentState)
    (focus : AgentFocus) (argMin argMax : Int) :
    HandlerOutcome × PerformanceAgentState :=
  let st := { st with handlerInvocations := st.handlerInvocations + 1 }
  match st.formatterFocus with
  | none => (.thrown (str "missing formatter"), st)
  | some formatterFocus =>
    match createBounds focus.data.parsedTrace argMin argMax with
    | none => (.err (str "invalid bounds"), st)
    | some bounds =>
      let summary := fmt.formatMainThreadTrackSummary formatterFocus bounds
      if isFunctionResponseTooLarge summary then
        (.err (str "getMainThreadTrackSummary response is too large. Try investigating using other functions, or a more narrow bounds"), st)
      else
        let key := str "getMainThreadTrackSummary(\x7bmin: " ++ intStr bounds.min ++
          str ", max: " ++ intStr bounds.max ++ str "\x7d)"
        (.ok summary, cacheFunctionResult st focus key summary)

/-- The handler of `declareFunction('getNetworkTrackSummary')`: same shape as
the main-thread one with the network formatter. -/
def getNetworkTrackSummaryHandler (fmt : Formatters) (st : PerformanceAgentState)
    (focus : AgentFocus) (argMin argMax : Int) :
    HandlerOutcome × PerformanceAgentState :=
  let st := { st with handlerInvocations := st.handlerInvocations + 1 }
  match st.formatterFocus with
  | none => (.thrown (str "missing formatter"), st)
  | some formatterFocus =>
    match createBounds focus.data.parsedTrace argMin argMax with
    | none => (.err (str "invalid bounds"), st)
    | some bounds =>
      let summary := fmt.formatNetworkTrackSummary formatterFocus bounds
      if isFunctionResponseTooLarge summary then
        (.err (str "getNetworkTrackSummary response is too large. Try investigating using other functions, or a more narrow bounds"), st)
      else
        let key := str "getNetworkTrackSummary(\x7bmin: " ++ intStr bounds.min ++
          str ", max: " ++ intStr bounds.max ++ str "\x7d)"
        (.ok summary, cacheFunctionResult st focus key summary)

/- ------------------------------------------------------------------ -/
/- C3: call-tree serialization sent once per object.                   -/
/- ------------------------------------------------------------------ -/

theorem callTreeParts_new (st : PerformanceAgentState) (focus : AgentFocus)
    (ct : AICallTree) (hct : focus.data.callTree = some ct)
    (hmem : ct.id ∉ st.callTreeContextSet) (hser : ct.serialized ≠ []) :
    callTreeParts st focus =
      ([callTreeBlock ct.serialized],
        { st with callTreeContextSet := st.callTreeContextSet ++ [ct.id] }) := by
  unfold callTreeParts
  simp [hct, hmem, hser]

theorem callTreeParts_seen (st : PerformanceAgentState) (focus : AgentFocus)
    (ct : AICallTree) (hct : focus.data.callTree = some ct)
    (hmem : ct.id ∈ st.callTreeContextSet) :
    callTreeParts st focus = ([], st) := by
  unfold callTreeParts
  simp [hct, hmem]

theorem insightParts_none (st : PerformanceAgentState) (focus : AgentFocus)
    (hins : focus.data.insight = none) : insightParts st focus = ([], st) := by
  unfold insightParts
  simp [hins]

theorem callTreeParts_set_monotone (st : PerformanceAgentState) (focus : AgentFocus) :
    ∃ l, (callTreeParts st focus).2.callTreeContextSet = st.callTreeContextSet ++ l := by
  unfold callTreeParts
  cases focus.data.callTree with
  | none => exact ⟨[], by simp⟩
  | some ct =>
    by_cases hmem : ct.id ∈ st.callTreeContextSet
    · exact ⟨[], by simp [hmem]⟩
    · by_cases hser : ct.serialized = []
      · exact ⟨[ct.id], by simp [hmem, hser]⟩
      · exact ⟨[ct.id], by simp [hmem, hser]⟩

theorem insightParts_set_eq (st : PerformanceAgentState) (focus : AgentFocus) :
    (insightParts st focus).2.callTreeContextSet = st.callTreeContextSet := by
  unfold insightParts
  cases focus.data.insight with
  | none => rfl
  | some ins =>
    dsimp only
    split <;> rfl

theorem enhanceQuery_state (st : PerformanceAgentState) (c : PerformanceTraceContext)
    (query : Str) :
    (enhanceQuery st (some c) query).2 =
      (insightParts (callTreeParts st c.focus).2 c.focus).2 := by
  unfold enhanceQuery
  dsimp only
  split <;> rfl

/-- C3: the call-tree serialization is prepended to the enhanced query once
per object, tracked by identity. (1) On the first `enhanceQuery` whose focus
holds a call tree not yet in `#callTreeContextSet` (non-empty serialization,
no insight selected), the enhanced query is the call-tree paragraph followed
by the user query, and the call tree's identity is added to the set. (2) Any
later `enhanceQuery` for a call tree whose identity is already in the set —
including after focusing another context and returning — yields the raw
query, unchanged state. (3) `#callTreeContextSet` only ever grows, so a call
tree once serialized stays marked for the rest of the conversation. -/
theorem c3_call_tree_sent_once :
    (∀ (st : PerformanceAgentState) (query : Str) (ct : AICallTree)
        (focus : AgentFocus) (ext : Bool),
      focus.data.callTree = some ct → focus.data.insight = none →
      st.callTreeContextSet.contains ct.id = false → ct.serialized ≠ [] →
      enhanceQuery st (some ⟨focus, ext⟩) query =
        (callTreeBlock ct.serialized ++ (str "# User query\n\n" ++ query),
          { st with callTreeContextSet := st.callTreeContextSet ++ [ct.id] })) ∧
    (∀ (st : PerformanceAgentState) (query : Str) (ct : AICallTree)
        (focus : AgentFocus) (ext : Bool),
      focus.data.callTree = some ct → focus.data.insight = none →
      st.callTreeContextSet.contains ct.id = true →
      enhanceQuery st (some ⟨focus, ext⟩) query = (query, st)) ∧
    (∀ (st : PerformanceAgentState) (context : Option PerformanceTraceContext)
        (query : Str),
      ∃ l, (enhanceQuery st context query).2.callTreeContextSet =
        st.callTreeContextSet ++ l) := by
  refine ⟨?_, ?_, ?_⟩
  · intro st query ct focus ext hct hins hmem hser
    have hmem' : ct.id ∉ st.callTreeContextSet := by simpa using hmem
    unfold enhanceQuery
    dsimp only
    rw [callTreeParts_new st focus ct hct hmem' hser, insightParts_none _ focus hins]
    simp
  · intro st query ct focus ext hct hins hmem
    have hmem' : ct.id ∈ st.callTreeContextSet := by simpa using hmem
    unfold enhanceQuery
    dsimp only
    rw [callTreeParts_seen st focus ct hct hmem', insightParts_none _ focus hins]
    simp
  · intro st context query
    cases context with
    | none => exact ⟨[], by simp [enhanceQuery]⟩
    | some c =>
      obtain ⟨l, hl⟩ := callTreeParts_set_monotone st c.focus
      refine ⟨l, ?_⟩
      rw [enhanceQuery_state, insightParts_set_eq, hl]

/-- Witness for C3: a concrete call tree is serialized into the first
enhanced query and skipped in the follow-up turn. -/
theorem c3_call_tree_sent_once_witness :
    enhanceQuery initialAgentState
        (some ⟨⟨5, ⟨⟨true, 0, 10, []⟩, none,
          some ⟨11, str "1;main;500;100;;", ⟨true, 0, 10, []⟩⟩, none⟩⟩, false⟩)
        (str "Where is time spent?") =
      (callTreeBlock (str "1;main;500;100;;") ++
          (str "# User query\n\n" ++ str "Where is time spent?"),
        { initialAgentState with callTreeContextSet := [11] }) ∧
    enhanceQuery { initialAgentState with callTreeContextSet := [11] }
        (some ⟨⟨5, ⟨⟨true, 0, 10, []⟩, none,
          some ⟨11, str "1;main;500;100;;", ⟨true, 0, 10, []⟩⟩, none⟩⟩, false⟩)
        (str "And now?") =
      (str "And now?", { initialAgentState with callTreeContextSet := [11] }) := by
  constructor
  · rw [c3_call_tree_sent_once.1 initialAgentState (str "Where is time spent?")
      ⟨11, str "1;main;500;100;;", ⟨true, 0, 10, []⟩⟩
      ⟨5, ⟨⟨true, 0, 10, []⟩, none,
        some ⟨11, str "1;main;500;100;;", ⟨true, 0, 10, []⟩⟩, none⟩⟩ false
      rfl rfl (by decide) (by decide)]
    decide
  · exact c3_call_tree_sent_once.2.1 { initialAgentState with callTreeContextSet := [11] }
      (str "And now?") ⟨11, str "1;main;500;100;;", ⟨true, 0, 10, []⟩⟩
      ⟨5, ⟨⟨true, 0, 10, []⟩, none,
        some ⟨11, str "1;main;500;100;;", ⟨true, 0, 10, []⟩⟩, none⟩⟩ false
      rfl rfl (by decide)

/- ------------------------------------------------------------------ -/
/- C6: the CONTEXT response and #hasShownAnalyzeTraceContext.          -/
/- ------------------------------------------------------------------ -/

/-- C6 (amended): the CONTEXT response is emitted at most once per
conversation (per agent instance), not once per distinct context: the first
`handleContextDetails` with any context emits exactly one CONTEXT response
and sets `#hasShownAnalyzeTraceContext`; once the flag is set nothing is
emitted for any context, the same or a distinct one; without a context
nothing is emitted. -/
theorem c6_context_shown_once_per_conversation (fmt : Formatters)
    (st : PerformanceAgentState) (context : PerformanceTraceContext) :
    (st.hasShownAnalyzeTraceContext = false →
      handleContextDetails fmt st (some context) =
        ([⟨str "Analyzing trace", [⟨str "Trace",
            match st.formatterFocus with
            | some f => fmt.formatTraceSummary f
            | none => []⟩]⟩],
          { st with hasShownAnalyzeTraceContext := true })) ∧
    (st.hasShownAnalyzeTraceContext = true →
      handleContextDetails fmt st (some context) = ([], st)) ∧
    handleContextDetails fmt st none = ([], st) := by
  refine ⟨?_, ?_, rfl⟩
  · intro h
    unfold handleContextDetails
    simp [h]
  · intro h
    unfold handleContextDetails
    simp [h]

/-- Formatters used by the concrete C6/C7 scenarios. -/
def fmtTrivial : Formatters :=
  ⟨fun _ => str "trace summary text", fun _ => [], fun _ => [], fun _ => [],
    fun _ => [], fun _ _ => [], fun _ _ => []⟩

/-- Two distinct contexts over traces with different bounds (so different
origins `trace-0-10` and `trace-0-20`). -/
def ctxA6 : PerformanceTraceContext := ⟨⟨0, ⟨⟨true, 0, 10, []⟩, none, none, none⟩⟩, false⟩

/-- The second, distinct context of the C6 counterexample. -/
def ctxB6 : PerformanceTraceContext := ⟨⟨1, ⟨⟨true, 0, 20, []⟩, none, none, none⟩⟩, false⟩

/-- C6 counterexample: after the CONTEXT response was shown for context A, a
turn on the distinct context B emits no CONTEXT response at all — the claim's
"a turn on a different distinct context emits it again for that context"
fails, because the flag is a single per-agent boolean. -/
theorem c6_counterexample :
    ctxA6 ≠ ctxB6 ∧
    (handleContextDetails fmtTrivial initialAgentState (some ctxA6)).1.length = 1 ∧
    (handleContextDetails fmtTrivial
      (handleContextDetails fmtTrivial initialAgentState (some ctxA6)).2
      (some ctxB6)).1 = [] := by
  refine ⟨by decide, rfl, rfl⟩

/-- Witness for C6's amended theorem at concrete inputs. -/
theorem c6_context_shown_once_per_conversation_witness :
    (handleContextDetails fmtTrivial initialAgentState (some ctxA6)).1.length = 1 ∧
    (handleContextDetails fmtTrivial
      { initialAgentState with hasShownAnalyzeTraceContext := true } (some ctxB6)) =
      ([], { initialAgentState with hasShownAnalyzeTraceContext := true }) := by
  constructor
  · rw [(c6_context_shown_once_per_conversation fmtTrivial initialAgentState ctxA6).1 rfl]
    rfl
  · exact (c6_context_shown_once_per_conversation fmtTrivial
      { initialAgentState with hasShownAnalyzeTraceContext := true } ctxB6).2.1 rfl

/- ------------------------------------------------------------------ -/
/- C7: fact store rebuild on run.                                      -/
/- ------------------------------------------------------------------ -/

/-- The always-present static facts `#addFacts` registers first, in order:
the extra preamble (only when the context is not external), then the
call-frame and network format descriptions. -/
def staticFacts (external : Bool) : List RequestFact :=
  (if !external then [notExternalExtraPreambleFact] else []) ++
  [callFrameDataDescriptionFact, networkDataDescriptionFact]

/-- The cached function-call facts `#addFacts` appends last
(`Object.values` of the per-focus record, insertion order). -/
def cachedFactsFor (st : PerformanceAgentState) (focusId : Nat) : List RequestFact :=
  ((mapGet st.functionCallCacheForFocus focusId).getD []).map (fun p => p.2)

theorem foldl_addFact (L : List RequestFact) (st : PerformanceAgentState) :
    L.foldl addFact st = { st with facts := st.facts ++ L } := by
  induction L generalizing st with
  | nil => simp
  | cons f fs ih => simp [List.foldl_cons, addFact, ih]

/-- C7 (amended): on every `run` the fact store is cleared and rebuilt in
order — always-present static format-description facts first, then the
memoized trace-summary facts, then the cached function-call facts of the
current focus — and with no selected context it is left empty. The
trace-summary facts are memoized once per agent instance (computed from the
focus of the first context that populates them and reused verbatim for every
later context of the conversation), not once per distinct context. -/
theorem c7_fact_store_rebuild (fmt : Formatters) (st : PerformanceAgentState)
    (context : PerformanceTraceContext) :
    (run fmt st none).facts = [] ∧
    (st.traceFacts = [] →
      (run fmt st (some context)).facts =
        staticFacts context.external ++ buildTraceFacts fmt context.focus ++
          cachedFactsFor st context.focus.id ∧
      (run fmt st (some context)).traceFacts = buildTraceFacts fmt context.focus ∧
      (run fmt st (some context)).formatterFocus = some context.focus) ∧
    (st.traceFacts ≠ [] →
      (run fmt st (some context)).facts =
        staticFacts context.external ++ st.traceFacts ++
          cachedFactsFor st context.focus.id ∧
      (run fmt st (some context)).traceFacts = st.traceFacts ∧
      (run fmt st (some context)).formatterFocus = st.formatterFocus) := by
  refine ⟨rfl, ?_, ?_⟩
  · intro htf
    unfold run clearFacts addFacts
    dsimp only
    by_cases hext : context.external = true <;>
      simp [hext, htf, addFact, foldl_addFact, staticFacts, cachedFactsFor]
  · intro htf
    unfold run clearFacts addFacts
    dsimp only
    by_cases hext : context.external = true <;>
      simp [hext, htf, addFact, foldl_addFact, staticFacts, cachedFactsFor]

/-- The formatter of the C7 counterexample: the trace summary text depends on
which focus the formatter was built around. -/
def fmtC7 : Formatters :=
  ⟨fun f => if f.id == 0 then str "Summary of A" else str "Summary of B",
    fun _ => [], fun _ => [], fun _ => [], fun _ => [], fun _ _ => [], fun _ _ => []⟩

/-- First context of the C7 counterexample (focus id 0). -/
def ctxA7 : PerformanceTraceContext := ⟨⟨0, ⟨⟨true, 0, 10, []⟩, none, none, none⟩⟩, true⟩

/-- Second, distinct context of the C7 counterexample (focus id 1, different
trace bounds). -/
def ctxB7 : PerformanceTraceContext := ⟨⟨1, ⟨⟨true, 0, 20, []⟩, none, none, none⟩⟩, true⟩

/-- C7 counterexample: the trace-summary facts are not recomputed per distinct
context. After a run on context A, a run on the distinct context B leaves the
fact store carrying A's trace summary and not B's — the claim's "context-
derived summary facts (computed once per distinct context and memoized
thereafter)" fails: the memo is per conversation, keyed by nothing. -/
theorem c7_counterexample :
    ctxA7 ≠ ctxB7 ∧
    (run fmtC7 (run fmtC7 initialAgentState (some ctxA7)) (some ctxB7)).facts =
      staticFacts true ++
        [⟨str "Trace summary:\n" ++ str "Summary of A", str "devtools",
          ScorePriority.REQUIRED⟩] ∧
    (⟨str "Trace summary:\n" ++ str "Summary of B", str "devtools",
        ScorePriority.REQUIRED⟩ : RequestFact) ∉
      (run fmtC7 (run fmtC7 initialAgentState (some ctxA7)) (some ctxB7)).facts := by
  refine ⟨by decide, by decide, by decide⟩

/-- Witness for C7's amended theorem at concrete inputs. -/
theorem c7_fact_store_rebuild_witness :
    (run fmtC7 initialAgentState none).facts = [] ∧
    (run fmtC7 initialAgentState (some ctxA7)).facts =
      staticFacts true ++ buildTraceFacts fmtC7 ctxA7.focus ++
        cachedFactsFor initialAgentState 0 := by
  constructor
  · exact (c7_fact_store_rebuild fmtC7 initialAgentState ctxA7).1
  · exact ((c7_fact_store_rebuild fmtC7 initialAgentState ctxA7).2.1 rfl).1

/- ------------------------------------------------------------------ -/
/- C1: the function-result cache and handler invocation.               -/
/- ------------------------------------------------------------------ -/

/-- Lookup of a cached fact by focus identity and canonical call string. -/
def cacheLookup (st : PerformanceAgentState) (focusId : Nat) (key : Str) :
    Option RequestFact :=
  ((((mapGet st.functionCallCacheForFocus focusId).getD []).find?
    (fun p => p.1 == key)).map (fun p => p.2))

theorem find?_mapSet (m : List (Nat × List (Str × RequestFact))) (k : Nat)
    (v : List (Str × RequestFact)) :
    (mapSet m k v).find? (fun p => p.1 == k) = some (k, v) := by
  induction m with
  | nil =>
    rw [show mapSet [] k v = [(k, v)] from rfl]
    exact List.find?_cons_of_pos _ (by simp)
  | cons p ps ih =>
    by_cases hp : (p.1 == k) = true
    · have hany : (p :: ps).any (fun q => q.1 == k) = true := by
        rw [List.any_cons, hp, Bool.true_or]
      rw [show mapSet (p :: ps) k v =
          (p :: ps).map (fun q => if q.1 == k then (k, v) else q) from by
        unfold mapSet; rw [if_pos hany]]
      rw [List.map_cons, if_pos hp]
      exact List.find?_cons_of_pos _ (by simp)
    · have hp' : (p.1 == k) = false := by simpa using hp
      by_cases hany2 : ps.any (fun q => q.1 == k) = true
      · have hany : (p :: ps).any (fun q => q.1 == k) = true := by
          rw [List.any_cons, hp', Bool.false_or]; exact hany2
        rw [show mapSet (p :: ps) k v =
            (p :: ps).map (fun q => if q.1 == k then (k, v) else q) from by
          unfold mapSet; rw [if_pos hany]]
        rw [List.map_cons, if_neg (by rw [hp']; exact Bool.false_ne_true)]
        rw [List.find?_cons_of_neg _ (by rw [hp']; exact Bool.false_ne_true)]
        rw [show ps.map (fun q => if q.1 == k then (k, v) else q) = mapSet ps k v from by
          unfold mapSet; rw [if_pos hany2]]
        exact ih
      · have hany2' : ps.any (fun q => q.1 == k) = false := Bool.eq_false_iff.mpr hany2
        have hany : (p :: ps).any (fun q => q.1 == k) = false := by
          rw [List.any_cons, hp', hany2']; rfl
        rw [show mapSet (p :: ps) k v = (p :: ps) ++ [(k, v)] from by
          unfold mapSet; rw [if_neg (by rw [hany]; exact Bool.false_ne_true)]]
        rw [List.cons_append]
        rw [List.find?_cons_of_neg _ (by rw [hp']; exact Bool.false_ne_true)]
        rw [show ps ++ [(k, v)] = mapSet ps k v from by
          unfold mapSet; rw [if_neg (by rw [hany2']; exact Bool.false_ne_true)]]
        exact ih

theorem mapGet_mapSet (m : List (Nat × List (Str × RequestFact))) (k : Nat)
    (v : List (Str × RequestFact)) : mapGet (mapSet m k v) k = some v := by
  unfold mapGet
  rw [find?_mapSet]
  rfl

theorem find?_recordSet (r : List (Str × RequestFact)) (k : Str) (v : RequestFact) :
    (recordSet r k v).find? (fun p => p.1 == k) = some (k, v) := by
  induction r with
  | nil =>
    rw [show recordSet [] k v = [(k, v)] from rfl]
    exact List.find?_cons_of_pos _ (by simp)
  | cons p ps ih =>
    by_cases hp : (p.1 == k) = true
    · have hany : (p :: ps).any (fun q => q.1 == k) = true := by
        rw [List.any_cons, hp, Bool.true_or]
      rw [show recordSet (p :: ps) k v =
          (p :: ps).map (fun q => if q.1 == k then (k, v) else q) from by
        unfold recordSet; rw [if_pos hany]]
      rw [List.map_cons, if_pos hp]
      exact List.find?_cons_of_pos _ (by simp)
    · have hp' : (p.1 == k) = false := by simpa using hp
      by_cases hany2 : ps.any (fun q => q.1 == k) = true
      · have hany : (p :: ps).any (fun q => q.1 == k) = true := by
          rw [List.any_cons, hp', Bool.false_or]; exact hany2
        rw [show recordSet (p :: ps) k v =
            (p :: ps).map (fun q => if q.1 == k then (k, v) else q) from by
          unfold recordSet; rw [if_pos hany]]
        rw [List.map_cons, if_neg (by rw [hp']; exact Bool.false_ne_true)]
        rw [List.find?_cons_of_neg _ (by rw [hp']; exact Bool.false_ne_true)]
        rw [show ps.map (fun q => if q.1 == k then (k, v) else q) = recordSet ps k v from by
          unfold recordSet; rw [if_pos hany2]]
        exact ih
      · have hany2' : ps.any (fun q => q.1 == k) = false := Bool.eq_false_iff.mpr hany2
        have hany : (p :: ps).any (fun q => q.1 == k) = false := by
          rw [List.any_cons, hp', hany2']; rfl
        rw [show recordSet (p :: ps) k v = (p :: ps) ++ [(k, v)] from by
          unfold recordSet; rw [if_neg (by rw [hany]; exact Bool.false_ne_true)]]
        rw [List.cons_append]
        rw [List.find?_cons_of_neg _ (by rw [hp']; exact Bool.false_ne_true)]
        rw [show ps ++ [(k, v)] = recordSet ps k v from by
          unfold recordSet; rw [if_neg (by rw [hany2']; exact Bool.false_ne_true)]]
        exact ih

theorem cacheLookup_cacheFunctionResult (st : PerformanceAgentState)
    (focus : AgentFocus) (key result : Str) :
    cacheLookup (cacheFunctionResult st focus key result) focus.id key =
      some ⟨str "This is the result of calling " ++ key ++ str ":\n" ++ result,
        key, ScorePriority.DEFAULT⟩ := by
  unfold cacheLookup cacheFunctionResult
  dsimp only
  rw [mapGet_mapSet]
  simp [find?_recordSet]

/-- C1 (amended): the function-result cache never short-circuits handler
invocation. Every `getEventByKey` call whose key resolves — including a
repeat identical to an already-cached call — runs the handler body
(`handlerInvocations` grows by one), recomputes the result from the current
trace data, and overwrites the per-focus cache entry for the canonical call
string; the cache's only consumer is `#addFacts`, which re-injects the cached
facts of the current focus as facts on later runs. -/
theorem c1_cache_never_short_circuits (eventForKey : Str → Except Str Event)
    (stringifyEvent : Event → Str) (st : PerformanceAgentState) (focus : AgentFocus)
    (eventKey : Str) (event : Event)
    (hkey : eventForKey eventKey = .ok event) :
    (getEventByKeyHandler eventForKey stringifyEvent st focus eventKey).2.handlerInvocations =
      st.handlerInvocations + 1 ∧
    (getEventByKeyHandler eventForKey stringifyEvent st focus eventKey).1 =
      .ok (stringifyEvent event) ∧
    cacheLookup (getEventByKeyHandler eventForKey stringifyEvent st focus eventKey).2
        focus.id (str "getEventByKey(\x27" ++ eventKey ++ str "\x27)") =
      some ⟨str "This is the result of calling " ++
          (str "getEventByKey(\x27" ++ eventKey ++ str "\x27)") ++ str ":\n" ++
          stringifyEvent event,
        str "getEventByKey(\x27" ++ eventKey ++ str "\x27)", ScorePriority.DEFAULT⟩ := by
  unfold getEventByKeyHandler lookupEvent
  rw [hkey]
  refine ⟨rfl, rfl, ?_⟩
  exact cacheLookup_cacheFunctionResult _ focus _ _

/-- The serializer and focus of the C1/C2 concrete scenarios. -/
def efC1 : Str → Except Str Event := fun _ => .ok ⟨0⟩

/-- A small concrete `JSON.stringify`. -/
def sfC1 : Event → Str := fun _ => str "event details"

/-- The focus of the C1/C2 concrete scenarios. -/
def focusC1 : AgentFocus := ⟨0, ⟨⟨true, 0, 10, []⟩, none, none, none⟩⟩

/-- C1 counterexample: after a first `getEventByKey('r-1')` call has cached
its result for this focus, an identical second call still invokes the handler
(the invocation count reaches 2), refuting "the handler is invoked at most
once for that focus; the second and later identical calls are answered from
the function-result cache". -/
theorem c1_counterexample :
    cacheLookup
        (getEventByKeyHandler efC1 sfC1 initialAgentState focusC1 (str "r-1")).2
        focusC1.id (str "getEventByKey(\x27r-1\x27)") ≠ none ∧
    ¬ (getEventByKeyHandler efC1 sfC1
        (getEventByKeyHandler efC1 sfC1 initialAgentState focusC1 (str "r-1")).2
        focusC1 (str "r-1")).2.handlerInvocations ≤ 1 := by
  constructor
  · decide
  · decide

/-- Witness for C1's amended theorem at concrete inputs. -/
theorem c1_cache_never_short_circuits_witness :
    ((getEventByKeyHandler efC1 sfC1 initialAgentState focusC1 (str "r-1")).2.handlerInvocations
      = initialAgentState.handlerInvocations + 1) ∧
    (getEventByKeyHandler efC1 sfC1 initialAgentState focusC1 (str "r-1")).1 =
      .ok (sfC1 ⟨0⟩) :=
  ⟨(c1_cache_never_short_circuits efC1 sfC1 initialAgentState focusC1 (str "r-1") ⟨0⟩ rfl).1,
    (c1_cache_never_short_circuits efC1 sfC1 initialAgentState focusC1 (str "r-1") ⟨0⟩ rfl).2.1⟩

/- ------------------------------------------------------------------ -/
/- C2: the oversize budget.                                            -/
/- ------------------------------------------------------------------ -/

/-- C2 (amended): the fixed byte budget `MAX_FUNCTION_RESULT_BYTE_LENGTH =
16384 * 4` is enforced by the two track-summary functions only: with a
formatter present and valid bounds, `getMainThreadTrackSummary` and
`getNetworkTrackSummary` answer a summary longer than the budget with the
narrowing error and return a summary within it; the other declared functions
(for example `getEventByKey`) return their result with no size check. -/
theorem c2_oversize_check_on_track_summaries (fmt : Formatters)
    (st : PerformanceAgentState) (focus formatterFocus : AgentFocus)
    (argMin argMax : Int) (bounds : TraceWindow)
    (hf : st.formatterFocus = some formatterFocus)
    (hb : createBounds focus.data.parsedTrace argMin argMax = some bounds) :
    ((fmt.formatMainThreadTrackSummary formatterFocus bounds).length >
        MAX_FUNCTION_RESULT_BYTE_LENGTH →
      (getMainThreadTrackSummaryHandler fmt st focus argMin argMax).1 =
        .err (str "getMainThreadTrackSummary response is too large. Try investigating using other functions, or a more narrow bounds")) ∧
    ((fmt.formatMainThreadTrackSummary formatterFocus bounds).length ≤
        MAX_FUNCTION_RESULT_BYTE_LENGTH →
      (getMainThreadTrackSummaryHandler fmt st focus argMin argMax).1 =
        .ok (fmt.formatMainThreadTrackSummary formatterFocus bounds)) ∧
    ((fmt.formatNetworkTrackSummary formatterFocus bounds).length >
        MAX_FUNCTION_RESULT_BYTE_LENGTH →
      (getNetworkTrackSummaryHandler fmt st focus argMin argMax).1 =
        .err (str "getNetworkTrackSummary response is too large. Try investigating using other functions, or a more narrow bounds")) ∧
    ((fmt.formatNetworkTrackSummary formatterFocus bounds).length ≤
        MAX_FUNCTION_RESULT_BYTE_LENGTH →
      (getNetworkTrackSummaryHandler fmt st focus argMin argMax).1 =
        .ok (fmt.formatNetworkTrackSummary formatterFocus bounds)) := by
  unfold getMainThreadTrackSummaryHandler getNetworkTrackSummaryHandler
  rw [hf]
  dsimp only
  rw [hb]
  dsimp only
  refine ⟨?_, ?_, ?_, ?_⟩
  · intro h
    rw [if_pos (by simpa [isFunctionResponseTooLarge] using h)]
  · intro h
    rw [if_neg (by simp [isFunctionResponseTooLarge]; omega)]
  · intro h
    rw [if_pos (by simpa [isFunctionResponseTooLarge] using h)]
  · intro h
    rw [if_neg (by simp [isFunctionResponseTooLarge]; omega)]

/-- An event serialization exceeding the byte budget. -/
def sfBig : Event → Str := fun _ => List.replicate 65537 'a'

/-- C2 counterexample: `getEventByKey` has no size check — a handler result of
65537 characters, above the 16384 × 4 = 65536 budget, is returned as a
successful result instead of an error instructing the caller to narrow
scope. -/
theorem c2_counterexample :
    (getEventByKeyHandler efC1 sfBig initialAgentState focusC1 (str "r-1")).1 =
      .ok (List.replicate 65537 'a') ∧
    (List.replicate 65537 'a' : Str).length > MAX_FUNCTION_RESULT_BYTE_LENGTH := by
  constructor
  · rfl
  · rw [List.length_replicate]
    norm_num [MAX_FUNCTION_RESULT_BYTE_LENGTH]

/-- The formatters of the C2/C10 witnesses. -/
def fmtC2 : Formatters :=
  ⟨fun _ => str "trace summary", fun _ => [], fun _ => [], fun _ => [], fun _ => [],
    fun _ _ => str "main summary", fun _ _ => str "net summary"⟩

/-- An agent state whose formatter was created around `focusC1`. -/
def stWithFormatter : PerformanceAgentState :=
  { initialAgentState with formatterFocus := some focusC1 }

/-- Witness for C2's amended theorem at concrete inputs: both track summaries
fit the budget and are returned. -/
theorem c2_oversize_check_on_track_summaries_witness :
    (getMainThreadTrackSummaryHandler fmtC2 stWithFormatter focusC1 0 10).1 =
      .ok (str "main summary") ∧
    (getNetworkTrackSummaryHandler fmtC2 stWithFormatter focusC1 0 10).1 =
      .ok (str "net summary") :=
  ⟨(c2_oversize_check_on_track_summaries fmtC2 stWithFormatter focusC1 focusC1 0 10
      ⟨0, 10⟩ rfl (by decide)).2.1 (by decide),
   (c2_oversize_check_on_track_summaries fmtC2 stWithFormatter focusC1 focusC1 0 10
      ⟨0, 10⟩ rfl (by decide)).2.2.2 (by decide)⟩

/- ------------------------------------------------------------------ -/
/- C8: unknown lookup keys.                                            -/
/- ------------------------------------------------------------------ -/

/-- C8: a `getEventByKey` call whose eventKey resolves to no event of the
focus — the events serializer throws one of its unknown-key errors, which
`lookupEvent` converts to null — returns the function-level error
`Invalid eventKey` and never throws past the handler boundary. -/
theorem c8_unknown_key_returns_function_error (eventForKey : Str → Except Str Event)
    (stringifyEvent : Event → Str) (st : PerformanceAgentState) (focus : AgentFocus)
    (eventKey msg : Str)
    (herr : eventForKey eventKey = .error msg)
    (hknown : hasSubstr msg (str "Unknown trace event") = true ∨
      hasSubstr msg (str "Unknown profile call") = true) :
    (getEventByKeyHandler eventForKey stringifyEvent st focus eventKey).1 =
      .err (str "Invalid eventKey") := by
  unfold getEventByKeyHandler lookupEvent
  rw [herr]
  rcases hknown with h | h <;> simp [h]

/-- Witness for C8: the serializer's `Unknown trace event` error is mapped to
the `Invalid eventKey` function-level error. -/
theorem c8_unknown_key_returns_function_error_witness :
    (getEventByKeyHandler (fun _ => .error (str "Unknown trace event: r-99")) sfC1
        initialAgentState focusC1 (str "r-99")).1 = .err (str "Invalid eventKey") :=
  c8_unknown_key_returns_function_error (fun _ => .error (str "Unknown trace event: r-99"))
    sfC1 initialAgentState focusC1 (str "r-99") (str "Unknown trace event: r-99") rfl
    (Or.inl (by decide))

/- ------------------------------------------------------------------ -/
/- C10: bounds validation and clamping.                                -/
/- ------------------------------------------------------------------ -/

theorem createBounds_eq (pt : ParsedTrace) (argMin argMax : Int)
    (hwf : pt.traceBoundsMin ≤ pt.traceBoundsMax) :
    createBounds pt argMin argMax =
      (if argMin > argMax ∨ argMin > pt.traceBoundsMax ∨ argMax < pt.traceBoundsMin then
        none
      else
        some ⟨Max.max argMin pt.traceBoundsMin, Min.min argMax pt.traceBoundsMax⟩) := by
  unfold createBounds
  dsimp only
  by_cases h1 : argMin > argMax
  · rw [if_pos h1, if_pos (Or.inl h1)]
  · rw [if_neg h1]
    by_cases h2 : Max.max argMin pt.traceBoundsMin > Min.min argMax pt.traceBoundsMax
    · rw [if_pos h2, if_pos (by omega)]
    · rw [if_neg h2, if_neg (by omega)]

/-- C10: with a formatter present and well-formed trace bounds, the two
track-summary handlers answer `invalid bounds` exactly when the requested min
exceeds the requested max or the requested range does not intersect the trace
bounds; otherwise `createBounds` yields the requested range clamped to the
trace bounds, the window the summary is computed over. -/
theorem c10_invalid_bounds_exactly (fmt : Formatters) (st : PerformanceAgentState)
    (focus formatterFocus : AgentFocus) (argMin argMax : Int)
    (hf : st.formatterFocus = some formatterFocus)
    (hwf : focus.data.parsedTrace.traceBoundsMin ≤ focus.data.parsedTrace.traceBoundsMax) :
    ((getMainThreadTrackSummaryHandler fmt st focus argMin argMax).1 =
        .err (str "invalid bounds") ↔
      (argMin > argMax ∨ argMin > focus.data.parsedTrace.traceBoundsMax ∨
        argMax < focus.data.parsedTrace.traceBoundsMin)) ∧
    ((getNetworkTrackSummaryHandler fmt st focus argMin argMax).1 =
        .err (str "invalid bounds") ↔
      (argMin > argMax ∨ argMin > focus.data.parsedTrace.traceBoundsMax ∨
        argMax < focus.data.parsedTrace.traceBoundsMin)) ∧
    (¬ (argMin > argMax ∨ argMin > focus.data.parsedTrace.traceBoundsMax ∨
        argMax < focus.data.parsedTrace.traceBoundsMin) →
      createBounds focus.data.parsedTrace argMin argMax =
        some ⟨Max.max argMin focus.data.parsedTrace.traceBoundsMin,
          Min.min argMax focus.data.parsedTrace.traceBoundsMax⟩) := by
  have hneMain : str "getMainThreadTrackSummary response is too large. Try investigating using other functions, or a more narrow bounds" ≠
      str "invalid bounds" := by decide
  have hneNet : str "getNetworkTrackSummary response is too large. Try investigating using other functions, or a more narrow bounds" ≠
      str "invalid bounds" := by decide
  refine ⟨?_, ?_, ?_⟩
  · unfold getMainThreadTrackSummaryHandler
    rw [hf]
    dsimp only
    rw [createBounds_eq _ _ _ hwf]
    by_cases hc : argMin > argMax ∨ argMin > focus.data.parsedTrace.traceBoundsMax ∨
        argMax < focus.data.parsedTrace.traceBoundsMin
    · rw [if_pos hc]
      simp [hc]
    · rw [if_neg hc]
      dsimp only
      constructor
      · intro heq
        exfalso
        split at heq
        · simp only [HandlerOutcome.err.injEq] at heq
          exact hneMain heq
        · simp at heq
      · intro hcond
        exact absurd hcond hc
  · unfold getNetworkTrackSummaryHandler
    rw [hf]
    dsimp only
    rw [createBounds_eq _ _ _ hwf]
    by_cases hc : argMin > argMax ∨ argMin > focus.data.parsedTrace.traceBoundsMax ∨
        argMax < focus.data.parsedTrace.traceBoundsMin
    · rw [if_pos hc]
      simp [hc]
    · rw [if_neg hc]
      dsimp only
      constructor
      · intro heq
        exfalso
        split at heq
        · simp only [HandlerOutcome.err.injEq] at heq
          exact hneNet heq
        · simp at heq
      · intro hcond
        exact absurd hcond hc
  · intro h
    rw [createBounds_eq _ _ _ hwf, if_neg h]

/-- Witness for C10 at concrete inputs: a range above the trace bounds yields
`invalid bounds`; a partially overlapping range is clamped. -/
theorem c10_invalid_bounds_exactly_witness :
    (getMainThreadTrackSummaryHandler fmtC2 stWithFormatter focusC1 20 30).1 =
      .err (str "invalid bounds") ∧
    createBounds focusC1.data.parsedTrace (-5) 7 = some ⟨0, 7⟩ := by
  constructor
  · exact ((c10_invalid_bounds_exactly fmtC2 stWithFormatter focusC1 focusC1 20 30 rfl
      (by decide)).1).mpr (Or.inr (Or.inl (by decide)))
  · have h := (c10_invalid_bounds_exactly fmtC2 stWithFormatter focusC1 focusC1 (-5) 7 rfl
      (by decide)).2.2 (by decide)
    rw [h]
    decide
